import Mathlib

/-!
Verification of the events CRUD API (Node.js / Express / MongoDB repository).

This file gives a shallow embedding of the request-validation and
type-normalization pipeline of the repository:

* `src/src/utils/validator.js` (`validateRequiredFields`, `validateEventData`,
  `validatePagination`),
* `src/src/controllers/eventController.js` (`getEventById`, `getLatestEvents`,
  `createEvent`, `updateEvent`),
* the `toObjectId` helper of the database module and the `/events` GET
  dispatch of the router,

together with theorems settling the claims about that pipeline.

JavaScript dynamic values are embedded as the inductive type `JsValue`;
numbers are embedded as `Option Rat` where `none` is the NaN sentinel
(JavaScript numbers are floats, but every number manipulated by this pipeline
is produced by `parseInt` / JSON decoding, which the rational numbers model
exactly).  The implementation-defined parts of the JavaScript runtime that the
code calls (`parseInt`, `JSON.parse`, `new Date(string)`) are embedded by
executable functions following the ECMAScript behavior on the forms of input
the pipeline receives; comments on each mark the modelled restriction.
-/

/-- Embedding of a JavaScript runtime value as it flows through the pipeline.
`vNum none` is the not-a-number sentinel; `vDate none` is an Invalid Date
object. -/
inductive JsValue where
  | vStr (s : String)
  | vNum (q : Option Rat)
  | vBool (b : Bool)
  | vNull
  | vDate (t : Option Int)
  | vArr (elems : List JsValue)
  | vObj (fields : List (String × JsValue))

open JsValue

/-- `Array.isArray`. -/
def JsValue.isArr : JsValue → Bool
  | .vArr _ => true
  | _ => false

/-- JavaScript truthiness of a value.  `""`, `0`, `NaN`, `false` and `null`
are falsy; every object (dates, arrays, plain objects — even an Invalid
Date) is truthy. -/
def jsTruthy : JsValue → Bool
  | .vStr s => !(s == "")
  | .vNum none => false
  | .vNum (some q) => !(q == 0)
  | .vBool b => b
  | .vNull => false
  | .vDate _ => true
  | .vArr _ => true
  | .vObj _ => true

/-- Truthiness of a possibly-absent value (`undefined` is falsy). -/
def jsTruthyOpt : Option JsValue → Bool
  | none => false
  | some v => jsTruthy v

/-- The ECMAScript whitespace characters relevant to form-field input. -/
def jsWhitespace (c : Char) : Bool :=
  c = ' ' || c = '\t' || c = '\n' || c = '\r' || c = '\x0b' || c = '\x0c'

/-- `String.prototype.trim`. -/
def jsTrim (s : String) : String :=
  ⟨((s.toList.dropWhile jsWhitespace).reverse.dropWhile jsWhitespace).reverse⟩

/-- Numeric value of a list of decimal digit characters. -/
def decDigitsVal (ds : List Char) : Nat :=
  ds.foldl (fun a c => a * 10 + (c.toNat - '0'.toNat)) 0

/-- Hexadecimal digit test. -/
def isHexChar (c : Char) : Bool :=
  c.isDigit || ('a' ≤ c && c ≤ 'f') || ('A' ≤ c && c ≤ 'F')

/-- Numeric value of one hexadecimal digit character. -/
def hexDigitVal (c : Char) : Nat :=
  if c.isDigit then c.toNat - '0'.toNat
  else if 'a' ≤ c && c ≤ 'f' then c.toNat - 'a'.toNat + 10
  else c.toNat - 'A'.toNat + 10

/-- Numeric value of a list of hexadecimal digit characters. -/
def hexDigitsVal (ds : List Char) : Nat :=
  ds.foldl (fun a c => a * 16 + hexDigitVal c) 0

/-- ECMAScript `parseInt` on a string, with `none` as the NaN result:
skip leading whitespace, read an optional sign, then either a `0x` / `0X`
prefixed run of hexadecimal digits or a maximal run of decimal digits;
no digits gives NaN.  (Values beyond 2^53 lose precision in JavaScript;
the pipeline only compares small bounds, where the embedding is exact.) -/
def jsParseInt (s : String) : Option Int :=
  let cs := s.toList.dropWhile jsWhitespace
  let sgn : Int := match cs with
    | '-' :: _ => -1
    | _ => 1
  let cs := match cs with
    | '-' :: r => r
    | '+' :: r => r
    | r => r
  match cs with
  | '0' :: x :: r =>
    if x = 'x' || x = 'X' then
      let ds := r.takeWhile isHexChar
      if ds.isEmpty then none else some (sgn * (hexDigitsVal ds : Int))
    else
      let ds := ('0' :: x :: r).takeWhile Char.isDigit
      some (sgn * (decDigitsVal ds : Int))
  | _ =>
    let ds := cs.takeWhile Char.isDigit
    if ds.isEmpty then none else some (sgn * (decDigitsVal ds : Int))

/-- `parseInt` applied to an absent value: `parseInt(undefined)` is NaN. -/
def jsParseIntOpt : Option String → Option Int
  | none => none
  | some s => jsParseInt s

/-- `parseInt` applied to a runtime value, as the validator does on fields
that may already have been converted: a number is stringified and reparsed
(an integer-valued number reparses to its truncation, NaN to NaN), `true`,
`false`, `null` and plain objects stringify to digit-free text (NaN).
Arrays never reach a `parseInt` call in this pipeline (form fields arrive
as strings), so they are mapped to NaN as well. -/
def jsParseIntValue : JsValue → Option Int
  | .vStr s => jsParseInt s
  | .vNum none => none
  | .vNum (some q) => some q.floor  -- pipeline numbers are parseInt results: integers
  | _ => none

/-- Model of the implementation-defined ECMAScript date parser
(`new Date(string)`), restricted to the ISO calendar-date form `YYYY-MM-DD`
with month in 1..12 and day in 1..31; every other string is an Invalid
Date.  The pipeline only ever distinguishes a valid moment from the
invalid-moment sentinel, so only the valid/invalid split matters; the
returned number is a monotone stand-in for the epoch timestamp. -/
def jsDateParse (s : String) : Option Int :=
  match s.toList with
  | [y1, y2, y3, y4, h1, m1, m2, h2, d1, d2] =>
    if h1 = '-' && h2 = '-' && [y1, y2, y3, y4, m1, m2, d1, d2].all Char.isDigit then
      let y := decDigitsVal [y1, y2, y3, y4]
      let m := decDigitsVal [m1, m2]
      let d := decDigitsVal [d1, d2]
      if 1 ≤ m && m ≤ 12 && 1 ≤ d && d ≤ 31 then
        some ((((y * 12 + m) * 31 + d) : Nat) * 86400000)
      else none
    else none
  | _ => none

/-- `new Date(v)` for a runtime value followed by the `isNaN(getTime())`
test: a string goes through the date parser, an existing Date is copied
(preserving invalidity), a finite number is an epoch timestamp, NaN gives
an Invalid Date, `true`, `false` and `null` coerce to the numbers 1, 0, 0.
Arrays and objects never reach a date conversion in this pipeline. -/
def jsDateValue : JsValue → Option Int
  | .vStr s => jsDateParse s
  | .vDate t => t
  | .vNum none => none
  | .vNum (some q) => some q.floor
  | .vBool b => some (if b then 1 else 0)
  | .vNull => some 0
  | _ => none

/-- JSON inter-token whitespace. -/
def jsonWs (c : Char) : Bool :=
  c = ' ' || c = '\t' || c = '\n' || c = '\r'

/-- The opening brace character of a JSON object. -/
def braceOpen : Char := Char.ofNat 123

/-- The closing brace character of a JSON object. -/
def braceClose : Char := Char.ofNat 125

/-- JSON string escape map for single-character escapes. -/
def jsonEsc (c : Char) : Option Char :=
  if c = '"' then some '"'
  else if c = '\\' then some '\\'
  else if c = '/' then some '/'
  else if c = 'b' then some '\x08'
  else if c = 'f' then some '\x0c'
  else if c = 'n' then some '\n'
  else if c = 'r' then some '\r'
  else if c = 't' then some '\t'
  else none

/-- Body of a JSON string after the opening quote; returns the decoded
content and the remaining input after the closing quote. -/
def pJsonStr : List Char → List Char → Option (String × List Char)
  | _, [] => none
  | acc, c :: rest =>
    if c = '"' then some (⟨acc.reverse⟩, rest)
    else if c = '\\' then
      match rest with
      | [] => none
      | e :: rest2 =>
        if e = 'u' then
          match rest2 with
          | a :: b :: c2 :: d :: rest3 =>
            if [a, b, c2, d].all isHexChar then
              pJsonStr (Char.ofNat (hexDigitsVal [a, b, c2, d]) :: acc) rest3
            else none
          | _ => none
        else
          match jsonEsc e with
          | some ch => pJsonStr (ch :: acc) rest2
          | none => none
    else pJsonStr (c :: acc) rest

/-- A JSON number starting at the given input (strict JSON grammar:
optional minus, `0` or a nonzero-led digit run, optional fraction,
optional exponent), as an exact rational. -/
def pJsonNum (cs : List Char) : Option (Rat × List Char) :=
  let (neg, cs1) := match cs with
    | '-' :: r => (true, r)
    | r => (false, r)
  let intPart : Option (List Char × List Char) := match cs1 with
    | '0' :: r =>
      match r with
      | d :: _ => if d.isDigit then none else some (['0'], r)
      | [] => some (['0'], [])
    | c :: r =>
      if c.isDigit then some (c :: r.takeWhile Char.isDigit, r.dropWhile Char.isDigit)
      else none
    | [] => none
  match intPart with
  | none => none
  | some (ids, rest1) =>
    let fracPart : Option (List Char × List Char) := match rest1 with
      | '.' :: r =>
        let ds := r.takeWhile Char.isDigit
        if ds.isEmpty then none else some (ds, r.dropWhile Char.isDigit)
      | r => some ([], r)
    match fracPart with
    | none => none
    | some (fds, rest2) =>
      let expPart : Option (Int × List Char) := match rest2 with
        | e :: r =>
          if e = 'e' || e = 'E' then
            let (esgn, r2) : Int × List Char := match r with
              | '-' :: r2 => (-1, r2)
              | '+' :: r2 => (1, r2)
              | r2 => (1, r2)
            let ds := r2.takeWhile Char.isDigit
            if ds.isEmpty then none
            else some (esgn * (decDigitsVal ds : Int), r2.dropWhile Char.isDigit)
          else some (0, e :: r)
        | [] => some (0, [])
      match expPart with
      | none => none
      | some (ex, rest3) =>
        let mant : Int := (if neg then -1 else 1) * (decDigitsVal (ids ++ fds) : Int)
        let q : Rat :=
          if 0 ≤ ex then mkRat (mant * ((10 ^ ex.toNat : Nat) : Int)) (10 ^ fds.length)
          else mkRat mant (10 ^ (fds.length + (-ex).toNat))
        some (q, rest3)

mutual

/-- A JSON value (fuel-bounded recursive descent; the fuel passed by
`jsonParse` strictly exceeds the recursion depth, which consumes at least
one character per unit of fuel). -/
def pJsonVal : Nat → List Char → Option (JsValue × List Char)
  | 0, _ => none
  | Nat.succ fuel, cs =>
    match cs.dropWhile jsonWs with
    | [] => none
    | 'n' :: 'u' :: 'l' :: 'l' :: r => some (JsValue.vNull, r)
    | 't' :: 'r' :: 'u' :: 'e' :: r => some (JsValue.vBool true, r)
    | 'f' :: 'a' :: 'l' :: 's' :: 'e' :: r => some (JsValue.vBool false, r)
    | '"' :: r =>
      match pJsonStr [] r with
      | some (s, r2) => some (JsValue.vStr s, r2)
      | none => none
    | '[' :: r =>
      (match r.dropWhile jsonWs with
       | ']' :: r2 => some (JsValue.vArr [], r2)
       | r1 =>
         match pJsonVal fuel r1 with
         | some (v, r2) => pJsonArrRest fuel [v] r2
         | none => none)
    | c :: r =>
      if c = braceOpen then
        match r.dropWhile jsonWs with
        | c2 :: r2 =>
          if c2 = braceClose then some (JsValue.vObj [], r2)
          else if c2 = '"' then
            match pJsonStr [] r2 with
            | some (k, r3) =>
              (match r3.dropWhile jsonWs with
               | ':' :: r4 =>
                 match pJsonVal fuel r4 with
                 | some (v, r5) => pJsonObjRest fuel [(k, v)] r5
                 | none => none
               | _ => none)
            | none => none
          else none
        | [] => none
      else pJsonNum (c :: r) |>.map (fun p => (JsValue.vNum (some p.1), p.2))

/-- Remaining elements of a JSON array after the first. -/
def pJsonArrRest : Nat → List JsValue → List Char → Option (JsValue × List Char)
  | 0, _, _ => none
  | Nat.succ fuel, acc, cs =>
    match cs.dropWhile jsonWs with
    | ']' :: r => some (JsValue.vArr acc.reverse, r)
    | ',' :: r =>
      (match pJsonVal fuel r with
       | some (v, r2) => pJsonArrRest fuel (v :: acc) r2
       | none => none)
    | _ => none

/-- Remaining key-value pairs of a JSON object after the first. -/
def pJsonObjRest : Nat → List (String × JsValue) → List Char → Option (JsValue × List Char)
  | 0, _, _ => none
  | Nat.succ fuel, acc, cs =>
    match cs.dropWhile jsonWs with
    | ',' :: r =>
      (match r.dropWhile jsonWs with
       | '"' :: r2 =>
         match pJsonStr [] r2 with
         | some (k, r3) =>
           (match r3.dropWhile jsonWs with
            | ':' :: r4 =>
              match pJsonVal fuel r4 with
              | some (v, r5) => pJsonObjRest fuel ((k, v) :: acc) r5
              | none => none
            | _ => none)
         | none => none
       | _ => none)
    | c :: r =>
      if c = braceClose then some (JsValue.vObj acc.reverse, r)
      else none
    | [] => none

end

/-- `JSON.parse` on a string: a single JSON value surrounded by optional
whitespace; anything else throws, embedded as `none`. -/
def jsonParse (s : String) : Option JsValue :=
  match pJsonVal (s.length + 2) s.toList with
  | some (v, rest) => if (rest.dropWhile jsonWs).isEmpty then some v else none
  | none => none

/-- Embedding of the `APIError` class of `src/middleware/errorHandler.js`:
a message and an HTTP status code.  Thrown errors are embedded as the
`Except.error` branch of the handler functions. -/
structure APIError where
  message : String
  statusCode : Nat
deriving DecidableEq, Repr

/-- `true` on the success branch of a handler result. -/
def exceptOk {α : Type} : Except APIError α → Bool
  | .ok _ => true
  | .error _ => false

/-- The status code carried by the failure branch of a handler result. -/
def errStatus? {α : Type} : Except APIError α → Option Nat
  | .error e => some e.statusCode
  | .ok _ => none

/-- Embedding of a request body / stored document as the partial record of
the fields this pipeline reads or writes (multipart form decoding gives one
`JsValue` per supplied field; an absent field is `none`, matching
JavaScript `undefined`).  MongoDB documents are schema-less, so stored
documents reuse the same partial-record shape. -/
structure EventInput where
  name : Option JsValue := none
  tagline : Option JsValue := none
  schedule : Option JsValue := none
  description : Option JsValue := none
  moderator : Option JsValue := none
  category : Option JsValue := none
  sub_category : Option JsValue := none
  rigor_rank : Option JsValue := none
  uid : Option JsValue := none
  attendees : Option JsValue := none
  image : Option JsValue := none
  type : Option JsValue := none
  created_at : Option JsValue := none
  updated_at : Option JsValue := none

/-- Dynamic field access `data[field]` for the fields the pipeline names. -/
def EventInput.get (d : EventInput) (f : String) : Option JsValue :=
  if f = "name" then d.name
  else if f = "tagline" then d.tagline
  else if f = "schedule" then d.schedule
  else if f = "description" then d.description
  else if f = "moderator" then d.moderator
  else if f = "category" then d.category
  else if f = "sub_category" then d.sub_category
  else if f = "rigor_rank" then d.rigor_rank
  else if f = "uid" then d.uid
  else if f = "attendees" then d.attendees
  else if f = "image" then d.image
  else if f = "type" then d.type
  else if f = "created_at" then d.created_at
  else if f = "updated_at" then d.updated_at
  else none

/-- `Object.keys(body).length` for a request body over the modelled fields. -/
def EventInput.keyCount (d : EventInput) : Nat :=
  (if d.name.isSome then 1 else 0) + (if d.tagline.isSome then 1 else 0) +
  (if d.schedule.isSome then 1 else 0) + (if d.description.isSome then 1 else 0) +
  (if d.moderator.isSome then 1 else 0) + (if d.category.isSome then 1 else 0) +
  (if d.sub_category.isSome then 1 else 0) + (if d.rigor_rank.isSome then 1 else 0) +
  (if d.uid.isSome then 1 else 0) + (if d.attendees.isSome then 1 else 0) +
  (if d.image.isSome then 1 else 0) + (if d.type.isSome then 1 else 0) +
  (if d.created_at.isSome then 1 else 0) + (if d.updated_at.isSome then 1 else 0)

/-- The empty request body. -/
def EventInput.empty : EventInput := ⟨none, none, none, none, none, none, none,
  none, none, none, none, none, none, none⟩

/-- The required-field list of `validateEventData` in create mode
(`src/src/utils/validator.js`, lines 38-47). -/
def requiredFields : List String :=
  ["name", "tagline", "schedule", "description", "moderator", "category",
   "sub_category", "rigor_rank"]

/-- The per-field test of `validateRequiredFields`
(`!data[field] || (typeof data[field] === 'string' && data[field].trim() === '')`). -/
def requiredFieldMissing (d : EventInput) (f : String) : Bool :=
  !(jsTruthyOpt (d.get f)) ||
    (match d.get f with
     | some (JsValue.vStr s) => jsTrim s == ""
     | _ => false)

/-- The rejection raised when required fields are missing, carrying the
joined list of every collected field. -/
def mkMissingErr (fs : List String) : APIError :=
  ⟨"Missing required fields: " ++ String.intercalate ", " fs, 400⟩

/-- Embedding of `validateRequiredFields` (`src/src/utils/validator.js`,
lines 9-24): collect every required field that fails the presence test (the
source pushes failing fields onto a list while looping in order, which is
exactly `List.filter`), then throw once listing them all. -/
def validateRequiredFields (d : EventInput) (fields : List String) :
    Except APIError Unit :=
  let missingFields := fields.filter (requiredFieldMissing d)
  if missingFields.isEmpty then .ok ()
  else .error (mkMissingErr missingFields)

/-- The `rigor_rank` shape check of `validateEventData` (lines 56-61):
runs whenever the field is not `undefined`; `parseInt` of the value must
not be NaN. -/
def checkRigorRank (d : EventInput) : Except APIError Unit :=
  match d.rigor_rank with
  | some v =>
    if (jsParseIntValue v).isNone then
      .error ⟨"rigor_rank must be a valid integer", 400⟩
    else .ok ()
  | none => .ok ()

/-- The `schedule` shape check of `validateEventData` (lines 68-73): runs
only when the field is truthy; `new Date` of the value must be a valid
moment. -/
def checkSchedule (d : EventInput) : Except APIError Unit :=
  match d.schedule with
  | some v =>
    if jsTruthy v then
      if (jsDateValue v).isNone then
        .error ⟨"schedule must be a valid date/time", 400⟩
      else .ok ()
    else .ok ()
  | none => .ok ()

/-- The `attendees` shape check of `validateEventData` (lines 80-84): runs
only when the field is truthy; the value must be an array. -/
def checkAttendees (d : EventInput) : Except APIError Unit :=
  match d.attendees with
  | some v =>
    if jsTruthy v then
      if v.isArr then .ok ()
      else .error ⟨"attendees must be an array of user IDs", 400⟩
    else .ok ()
  | none => .ok ()

/-- Embedding of `validateEventData` (`src/src/utils/validator.js`, lines
32-85): in create mode (`isUpdate = false`) the required-field check runs
first; then, in both modes, the `rigor_rank`, `schedule` and `attendees`
shape checks run in order, the first failure being thrown. -/
def validateEventData (d : EventInput) (isUpdate : Bool) : Except APIError Unit :=
  match (if isUpdate then .ok () else validateRequiredFields d requiredFields :
      Except APIError Unit) with
  | .error e => .error e
  | .ok _ =>
    match checkRigorRank d with
    | .error e => .error e
    | .ok _ =>
      match checkSchedule d with
      | .error e => .error e
      | .ok _ => checkAttendees d

/-- The resolved pagination parameters returned by `validatePagination`. -/
structure PageParams where
  limit : Int
  page : Int
  skip : Int
deriving DecidableEq, Repr

/-- JavaScript `x || d` applied to a number `x`: NaN and 0 are falsy and
select the default. -/
def jsOrNum (x : Option Int) (d : Int) : Int :=
  match x with
  | some n => if n = 0 then d else n
  | none => d

/-- Embedding of `validatePagination` (`src/src/utils/validator.js`, lines
93-110): `parseInt(limit) || 10` and `parseInt(page) || 1`, then range
checks, then the skip offset. -/
def validatePagination (limit page : Option String) : Except APIError PageParams :=
  let parsedLimit : Int := jsOrNum (jsParseIntOpt limit) 10
  let parsedPage : Int := jsOrNum (jsParseIntOpt page) 1
  if parsedLimit < 1 || parsedLimit > 100 then
    .error ⟨"Limit must be between 1 and 100", 400⟩
  else if parsedPage < 1 then
    .error ⟨"Page must be greater than 0", 400⟩
  else .ok ⟨parsedLimit, parsedPage, (parsedPage - 1) * parsedLimit⟩

/-- The store's internal identifier type (MongoDB ObjectId), wrapping the
accepted external string form. -/
structure ObjId where
  key : String
deriving DecidableEq, Repr

/-- `ObjectId.isValid` of the mongodb driver (an external collaborator),
modelled from its documented behavior: a 24-character hexadecimal string,
or any 12-character string (taken as 12 bytes). -/
def objectIdValid (s : String) : Bool :=
  (s.length = 24 && s.toList.all isHexChar) || s.length = 12

/-- Embedding of `toObjectId` of the database module: validate the string
first and only then construct, converting any construction failure to
`null` (here `none`) instead of propagating; in the embedding construction
of a validated string always succeeds, so the result is `none` exactly on
invalid input.  Total — never throws. -/
def toObjectId (s : String) : Option ObjId :=
  if objectIdValid s then some ⟨s⟩ else none

/-- The events collection: a list of identifier-document pairs plus a
counter from which insertion derives fresh identifiers. -/
structure Store where
  docs : List (ObjId × EventInput)
  fresh : Nat

/-- `findOne` by `_id`. -/
def Store.findDoc? (st : Store) (oid : ObjId) : Option EventInput :=
  (st.docs.find? (fun p => p.1 == oid)).map (fun p => p.2)

/-- `insertOne`: the store assigns a fresh identifier and appends the
document; returns the new store and the inserted identifier. -/
def Store.insertOne (st : Store) (d : EventInput) : Store × ObjId :=
  let oid : ObjId := ⟨"generated-" ++ toString st.fresh⟩
  (⟨st.docs ++ [(oid, d)], st.fresh + 1⟩, oid)

/-- One field of a `$set` merge: a field present in the update document
replaces the stored one; an absent field is left untouched. -/
def mergeField (upd old : Option JsValue) : Option JsValue :=
  match upd with
  | some v => some v
  | none => old

/-- The `$set` merge of `findOneAndUpdate` over the modelled fields. -/
def setMerge (old upd : EventInput) : EventInput :=
  ⟨mergeField upd.name old.name, mergeField upd.tagline old.tagline,
   mergeField upd.schedule old.schedule, mergeField upd.description old.description,
   mergeField upd.moderator old.moderator, mergeField upd.category old.category,
   mergeField upd.sub_category old.sub_category, mergeField upd.rigor_rank old.rigor_rank,
   mergeField upd.uid old.uid, mergeField upd.attendees old.attendees,
   mergeField upd.image old.image, mergeField upd.type old.type,
   mergeField upd.created_at old.created_at, mergeField upd.updated_at old.updated_at⟩

/-- `findOneAndUpdate` with `$set` and `returnDocument: 'after'`: `none`
when no document matches, otherwise the new store and the post-update
document. -/
def Store.findOneAndUpdate (st : Store) (oid : ObjId) (upd : EventInput) :
    Option (Store × EventInput) :=
  match st.findDoc? oid with
  | none => none
  | some old =>
    let merged := setMerge old upd
    some (⟨st.docs.map (fun p => if p.1 == oid then (oid, merged) else p), st.fresh⟩, merged)

/-- Embedding of the `getEventById` handler
(`src/src/controllers/eventController.js`, lines 11-42): require a truthy
`id` query parameter, convert it with `toObjectId` (invalid gives 400, a
client error), look the document up (absent gives 404). -/
def getEventById (id : Option String) (st : Store) : Except APIError EventInput :=
  match id with
  | none => .error ⟨"Event ID is required", 400⟩
  | some s =>
    if s = "" then .error ⟨"Event ID is required", 400⟩
    else
      match toObjectId s with
      | none => .error ⟨"Invalid event ID format", 400⟩
      | some oid =>
        match st.findDoc? oid with
        | none => .error ⟨"Event not found", 404⟩
        | some d => .ok d

/-- The pagination metadata of the list-response envelope. -/
structure PageMeta where
  currentPage : Int
  totalPages : Int
  totalEvents : Nat
  eventsPerPage : Int
  hasNextPage : Bool
  hasPrevPage : Bool
deriving DecidableEq, Repr

/-- The list-response envelope: the page of documents plus pagination
metadata. -/
structure ListResponse where
  data : List EventInput
  pagination : PageMeta

/-- Embedding of the `getLatestEvents` handler
(`src/src/controllers/eventController.js`, lines 48-94): require
`type=latest`, resolve pagination, count all documents, return the
requested page slice (the store's schedule-descending scan order is the
collaborator's; no claim depends on it, so the scan is taken in store
order) and the pagination metadata.  `Math.ceil(totalEvents / limit)` is
embedded as ceiling division on naturals, faithful because
`validatePagination` guarantees `1 ≤ limit`. -/
def getLatestEvents (type_ limit page : Option String) (st : Store) :
    Except APIError ListResponse :=
  if type_ ≠ some "latest" then
    .error ⟨"Invalid type parameter. Use type=latest", 400⟩
  else
    match validatePagination limit page with
    | .error e => .error e
    | .ok pg =>
      let totalEvents := st.docs.length
      let events := ((st.docs.map (fun p => p.2)).drop pg.skip.toNat).take pg.limit.toNat
      let totalPages : Int :=
        Int.ofNat ((totalEvents + (pg.limit.toNat - 1)) / pg.limit.toNat)
      .ok ⟨events,
        ⟨pg.page, totalPages, totalEvents, pg.limit,
         decide (pg.page < totalPages), decide (pg.page > 1)⟩⟩

/-- The attendees conversion of `createEvent` (lines 121-129): a truthy
string is JSON-decoded (decode failure throws a 400 naming the field), any
other truthy value is kept, and a falsy or absent value defaults to the
empty array. -/
def attendeesNormalizeCreate (a : Option JsValue) : Except APIError JsValue :=
  match a with
  | some v =>
    if jsTruthy v then
      match v with
      | JsValue.vStr s =>
        match jsonParse s with
        | some w => .ok w
        | none => .error ⟨"Invalid attendees format. Must be a JSON array", 400⟩
      | _ => .ok v
    else .ok (JsValue.vArr [])
  | none => .ok (JsValue.vArr [])

/-- The attendees conversion of `updateEvent` (lines 208-214): same
decoding of a truthy string, but no defaulting — any other value, absent
included, is left untouched. -/
def attendeesNormalizeUpdate (a : Option JsValue) : Except APIError (Option JsValue) :=
  match a with
  | some v =>
    if jsTruthy v then
      match v with
      | JsValue.vStr s =>
        match jsonParse s with
        | some w => .ok (some w)
        | none => .error ⟨"Invalid attendees format. Must be a JSON array", 400⟩
      | _ => .ok (some v)
    else .ok (some v)
  | none => .ok none

/-- The guarded conversions `if (x) x = f(x)` of both handlers: a truthy
field is converted in place, anything else is untouched. -/
def jsConvTruthy (o : Option JsValue) (f : JsValue → JsValue) : Option JsValue :=
  match o with
  | some v => if jsTruthy v then some (f v) else some v
  | none => none

/-- JavaScript `x || d` on a possibly-absent runtime value. -/
def jsOrDefault (o : Option JsValue) (d : JsValue) : JsValue :=
  match o with
  | some v => if jsTruthy v then v else d
  | none => d

/-- Embedding of the `createEvent` handler
(`src/src/controllers/eventController.js`, lines 108-178): convert the
stringly-typed form fields (attendees JSON decode with default, integer
parses for `uid` and `rigor_rank`, date parse for `schedule`), require the
uploaded image (its saved path arrives in `file`, the `req.file`
side-channel), validate in create mode, stamp `type`, the `uid` fallback
18 and both timestamps, then insert. -/
def createEvent (body : EventInput) (file : Option String) (now : Int)
    (st : Store) : Except APIError (Store × ObjId × EventInput) :=
  match attendeesNormalizeCreate body.attendees with
  | .error e => .error e
  | .ok a =>
    let d1 : EventInput :=
      { body with
        attendees := some a,
        uid := jsConvTruthy body.uid (fun v => JsValue.vNum ((jsParseIntValue v).map (fun n => (n : Rat)))),
        rigor_rank := jsConvTruthy body.rigor_rank (fun v => JsValue.vNum ((jsParseIntValue v).map (fun n => (n : Rat)))),
        schedule := jsConvTruthy body.schedule (fun v => JsValue.vDate (jsDateValue v)) }
    match file with
    | none => .error ⟨"Event image is required", 400⟩
    | some p =>
      let d2 : EventInput := { d1 with image := some (JsValue.vStr p) }
      match validateEventData d2 false with
      | .error e => .error e
      | .ok _ =>
        let d3 : EventInput :=
          { d2 with
            type := some (JsValue.vStr "event"),
            uid := some (jsOrDefault d2.uid (JsValue.vNum (some 18))),
            created_at := some (JsValue.vDate (some now)),
            updated_at := some (JsValue.vDate (some now)) }
        .ok ((st.insertOne d3).1, (st.insertOne d3).2, d3)

/-- The normalization phase of `updateEvent` (lines 203-227): merge the
uploaded file path if present, decode a truthy attendees string, convert
truthy `rigor_rank`, `schedule` and `uid`, and stamp `updated_at`.  No
defaulting and — as in the source — no validation call. -/
def updateNormalize (body : EventInput) (file : Option String) (now : Int) :
    Except APIError EventInput :=
  let d1 : EventInput :=
    match file with
    | some p => { body with image := some (JsValue.vStr p) }
    | none => body
  match attendeesNormalizeUpdate d1.attendees with
  | .error e => .error e
  | .ok a =>
    .ok { d1 with
      attendees := a,
      rigor_rank := jsConvTruthy d1.rigor_rank (fun v => JsValue.vNum ((jsParseIntValue v).map (fun n => (n : Rat)))),
      schedule := jsConvTruthy d1.schedule (fun v => JsValue.vDate (jsDateValue v)),
      uid := jsConvTruthy d1.uid (fun v => JsValue.vNum ((jsParseIntValue v).map (fun n => (n : Rat)))),
      updated_at := some (JsValue.vDate (some now)) }

/-- Embedding of the `updateEvent` handler
(`src/src/controllers/eventController.js`, lines 185-252): require a valid
identifier, reject an empty body with no replacement file, normalize the
provided fields, and apply the atomic find-and-set, returning the
post-update document (404 when nothing matched). -/
def updateEvent (id : String) (body : EventInput) (file : Option String)
    (now : Int) (st : Store) : Except APIError (Store × EventInput) :=
  match toObjectId id with
  | none => .error ⟨"Invalid event ID format", 400⟩
  | some oid =>
    if body.keyCount = 0 && file.isNone then
      .error ⟨"No update data provided", 400⟩
    else
      match updateNormalize body file now with
      | .error e => .error e
      | .ok d =>
        match st.findOneAndUpdate oid d with
        | none => .error ⟨"Event not found", 404⟩
        | some (st', merged) => .ok (st', merged)

/-- The GET `/events` dispatch outcome of the router
(`src/routes/...`, the router file): which handler runs, or the immediate
400 response produced without running any handler. -/
inductive Dispatch where
  | readOne
  | listLatest
  | badRequest
deriving DecidableEq, Repr

/-- Embedding of the GET `/events` route dispatch: a truthy `id` query
parameter selects the read-one handler; otherwise `type === 'latest'`
selects the list handler; otherwise the route answers 400 itself. -/
def routeEvents (id type_ : Option String) : Dispatch :=
  if jsTruthyOpt (id.map JsValue.vStr) then Dispatch.readOne
  else if type_ = some "latest" then Dispatch.listLatest
  else Dispatch.badRequest

/-! ## Claim-side definitions and concrete fixtures -/

/-- The pagination resolution rule as the specification words it: parse
the text as an integer and default (to 10 for the limit) only when the
text is unparsable or absent. -/
def specResolvedLimit (t : Option String) : Int :=
  match jsParseIntOpt t with
  | none => 10
  | some n => n

/-- The amended resolution rule for the limit: unparsable, absent — and
also a parsed zero, which is falsy — give the default 10. -/
def amendedResolvedLimit (t : Option String) : Int :=
  match jsParseIntOpt t with
  | none => 10
  | some n => if n = 0 then 10 else n

/-- The amended resolution rule for the page: unparsable, absent, or a
parsed zero give the default 1. -/
def amendedResolvedPage (t : Option String) : Int :=
  match jsParseIntOpt t with
  | none => 1
  | some n => if n = 0 then 1 else n

/-- Integer text: an optional sign followed by one or more decimal
digits, spanning the whole string. -/
def isIntegerText (s : String) : Bool :=
  let cs := match s.toList with
    | '-' :: r => r
    | '+' :: r => r
    | r => r
  !cs.isEmpty && cs.all Char.isDigit

/-- The amended required-field criterion of the create-mode validator: a
field is collected as missing when it is absent, is a textual value blank
after trimming, or is otherwise falsy (the number 0, the NaN sentinel,
`false` or `null`). -/
def claimRequiredFlagged (d : EventInput) (f : String) : Bool :=
  match d.get f with
  | none => true
  | some (JsValue.vStr s) => jsTrim s == ""
  | some v => !(jsTruthy v)

/-- A request body whose eight required fields all carry valid values. -/
def validBody : EventInput :=
  { EventInput.empty with
    name := some (vStr "Tech Meetup"),
    tagline := some (vStr "Learn fast"),
    schedule := some (vStr "2024-03-15"),
    description := some (vStr "An event"),
    moderator := some (vStr "Ada"),
    category := some (vStr "tech"),
    sub_category := some (vStr "workshop"),
    rigor_rank := some (vStr "5") }

/-- The empty events collection. -/
def emptyStore : Store := ⟨[], 0⟩

/-- A well-formed 24-character hexadecimal identifier. -/
def oidA : String := "aaaaaaaaaaaaaaaaaaaaaaaa"

/-- A stored document, created at moment 0. -/
def docOld : EventInput :=
  { EventInput.empty with
    name := some (vStr "old name"),
    created_at := some (vDate (some 0)),
    updated_at := some (vDate (some 0)) }

/-- A store holding `docOld` under `oidA`. -/
def storeA : Store := ⟨[(⟨oidA⟩, docOld)], 1⟩

/-- A store holding 47 documents. -/
def store47 : Store := ⟨List.replicate 47 (⟨"x"⟩, EventInput.empty), 0⟩

/-- The response of the 47-record, limit-5, page-2 list scenario. -/
def resp47 : ListResponse :=
  ⟨List.replicate 5 EventInput.empty, ⟨2, 10, 47, 5, true, true⟩⟩

/-- A create body whose `uid` is non-numeric text. -/
def bodyC3 : EventInput := { validBody with uid := some (vStr "abc") }

/-- A create body whose `attendees` text decodes to the number 0. -/
def bodyC6 : EventInput := { validBody with attendees := some (vStr "0") }

/-- A create body whose `attendees` is already a truthy non-array value. -/
def bodyBadAtt : EventInput := { validBody with attendees := some (vNum (some 5)) }

/-- An update body supplying only a replacement `tagline`. -/
def bodyTagOnly : EventInput := { EventInput.empty with tagline := some (vStr "New tagline") }

/-- An update body supplying a `created_at` field of its own. -/
def bodyHack : EventInput := { EventInput.empty with created_at := some (vStr "hacked") }

/-- An update body whose `rigor_rank` is non-numeric text. -/
def bodyNanRigor : EventInput := { EventInput.empty with rigor_rank := some (vStr "abc") }

/-- A record with all eight required fields present and none blank, but
with the number 0 as `rigor_rank`. -/
def dZeroRigor : EventInput :=
  { validBody with
    rigor_rank := some (vNum (some 0)),
    schedule := some (vDate (some 86400000)) }

/-- A create body missing its `name`. -/
def dMissingName : EventInput := { validBody with name := none }


/-! ## Helper lemmas -/

/-- The source's `parseInt(x) || d` resolution agrees with the amended
limit resolution rule. -/
theorem jsOrNum_eq_amendedLimit (t : Option String) :
    jsOrNum (jsParseIntOpt t) 10 = amendedResolvedLimit t := by
  cases h : jsParseIntOpt t <;> simp [jsOrNum, amendedResolvedLimit, h]

/-- The source's `parseInt(x) || d` resolution agrees with the amended
page resolution rule. -/
theorem jsOrNum_eq_amendedPage (t : Option String) :
    jsOrNum (jsParseIntOpt t) 1 = amendedResolvedPage t := by
  cases h : jsParseIntOpt t <;> simp [jsOrNum, amendedResolvedPage, h]

/-- An accepted pagination result has its limit in `[1, 100]` and its page
at least 1. -/
theorem validatePagination_ok_bounds (lt pt : Option String) (r : PageParams)
    (h : validatePagination lt pt = .ok r) :
    1 ≤ r.limit ∧ r.limit ≤ 100 ∧ 1 ≤ r.page := by
  simp only [validatePagination] at h
  split at h
  · exact absurd h (by simp)
  · split at h
    · exact absurd h (by simp)
    · rename_i h1 h2
      cases h
      simp only [Bool.or_eq_true, decide_eq_true_eq, not_or] at h1 h2
      dsimp only
      omega

/-! ## C2 -/

/-- C2 counterexample: the limit text `"0"` resolves, under the
specification's resolution rule (default only when unparsable or absent),
to 0, which lies outside `[1, 100]` — yet the resolver does not reject it:
it substitutes 10 (the parsed 0 is falsy under `||`). -/
theorem validatePagination_zero_limit_not_rejected :
    specResolvedLimit (some "0") = 0 ∧
    validatePagination (some "0") none = .ok ⟨10, 1, 0⟩ := by
  exact ⟨rfl, rfl⟩

/-- C2 (amended): the resolver rejects exactly those inputs whose resolved
limit lies outside `[1, 100]` or whose resolved page is less than 1, where
resolution maps unparsable, absent and zero-parsing text to the defaults
(10 for the limit, 1 for the page); and for every limit text whose parsed
value lies inside `[1, 100]`, an accepted result carries that exact
limit. -/
theorem validatePagination_range_spec (lt pt : Option String) :
    (exceptOk (validatePagination lt pt) = true ↔
      (1 ≤ amendedResolvedLimit lt ∧ amendedResolvedLimit lt ≤ 100 ∧
       1 ≤ amendedResolvedPage pt)) ∧
    (∀ n : Int, jsParseIntOpt lt = some n → 1 ≤ n → n ≤ 100 →
      ∀ r : PageParams, validatePagination lt pt = .ok r → r.limit = n) := by
  constructor
  · simp only [validatePagination, jsOrNum_eq_amendedLimit, jsOrNum_eq_amendedPage]
    split
    · rename_i h1
      simp only [Bool.or_eq_true, decide_eq_true_eq] at h1
      simp only [exceptOk, Bool.false_eq_true, false_iff]
      omega
    · rename_i h1
      simp only [Bool.or_eq_true, decide_eq_true_eq, not_or] at h1
      split
      · rename_i h2
        simp only [exceptOk, Bool.false_eq_true, false_iff]
        omega
      · rename_i h2
        simp only [exceptOk, true_iff]
        omega
  · intro n hn h1 h100 r hr
    have hb := validatePagination_ok_bounds lt pt r hr
    simp only [validatePagination] at hr
    split at hr
    · exact absurd hr (by simp)
    · split at hr
      · exact absurd hr (by simp)
      · cases hr
        simp only [jsOrNum, hn]
        have : ¬ n = 0 := by omega
        simp [this]

/-- Witness for the amended C2 theorem at limit text `"7"`, page text
`"2"`. -/
theorem validatePagination_range_spec_witness :
    exceptOk (validatePagination (some "7") (some "2")) = true ∧
    validatePagination (some "7") (some "2") = .ok ⟨7, 2, 7⟩ ∧
    (⟨7, 2, 7⟩ : PageParams).limit = 7 :=
  ⟨(validatePagination_range_spec (some "7") (some "2")).1.mpr (by decide),
   rfl,
   (validatePagination_range_spec (some "7") (some "2")).2 7 (by rfl)
     (by decide) (by decide) ⟨7, 2, 7⟩ (by rfl)⟩

/-! ## C9 -/

/-- C9 counterexample: `"12abc"` is not integer text, yet the resolver
neither rejects it nor substitutes the default 10 — `parseInt` reads the
numeric prefix and the resolver returns limit 12. -/
theorem validatePagination_nonint_prefix_not_defaulted :
    isIntegerText "12abc" = false ∧
    validatePagination (some "12abc") none = .ok ⟨12, 1, 0⟩ := by
  exact ⟨rfl, rfl⟩

/-- C9 (amended): for every limit or page query text on which `parseInt`
yields no value at all (no leading integer prefix — absent text included),
the resolver does not reject on that account but substitutes the defaults:
an accepted result carries limit 10 (respectively page 1), and a rejection
can only be due to the other parameter; text with a numeric prefix instead
resolves to that prefix value. -/
theorem validatePagination_default_spec :
    (∀ lt pt : Option String, jsParseIntOpt lt = none →
      ((∀ r : PageParams, validatePagination lt pt = .ok r → r.limit = 10) ∧
       (∀ e : APIError, validatePagination lt pt = .error e →
         e = ⟨"Page must be greater than 0", 400⟩))) ∧
    (∀ lt pt : Option String, jsParseIntOpt pt = none →
      ((∀ r : PageParams, validatePagination lt pt = .ok r → r.page = 1) ∧
       (∀ e : APIError, validatePagination lt pt = .error e →
         e = ⟨"Limit must be between 1 and 100", 400⟩))) := by
  constructor
  · intro lt pt hlt
    simp only [validatePagination, hlt, jsOrNum]
    constructor
    · intro r hr
      split at hr
      · exact absurd hr (by simp)
      · split at hr
        · exact absurd hr (by simp)
        · cases hr; rfl
    · intro e he
      split at he
      · rename_i h1
        simp at h1
      · split at he
        · cases he; rfl
        · exact absurd he (by simp)
  · intro lt pt hpt
    simp only [validatePagination, hpt, jsOrNum]
    constructor
    · intro r hr
      split at hr
      · exact absurd hr (by simp)
      · split at hr
        · exact absurd hr (by simp)
        · cases hr; rfl
    · intro e he
      split at he
      · cases he; rfl
      · split at he
        · rename_i h1 h2
          simp at h2
        · exact absurd he (by simp)

/-- Witness for the amended C9 theorem at limit text `"abc"` and absent
page text. -/
theorem validatePagination_default_spec_witness :
    validatePagination (some "abc") none = .ok ⟨10, 1, 0⟩ ∧
    (⟨10, 1, 0⟩ : PageParams).limit = 10 ∧
    (⟨10, 1, 0⟩ : PageParams).page = 1 :=
  ⟨rfl,
   (validatePagination_default_spec.1 (some "abc") none (by rfl)).1 ⟨10, 1, 0⟩ (by rfl),
   (validatePagination_default_spec.2 (some "abc") none (by rfl)).1 ⟨10, 1, 0⟩ (by rfl)⟩

/-! ## C10 -/

/-- C10 counterexample: a request supplying the `id` parameter with the
empty-string value together with `type=latest` is dispatched to the list
handler, not to read-one — the empty `id` is falsy, so it does not take
precedence. -/
theorem routeEvents_empty_id_yields_list :
    (some "" : Option String).isSome = true ∧
    routeEvents (some "") (some "latest") = Dispatch.listLatest ∧
    Dispatch.listLatest ≠ Dispatch.readOne := by
  exact ⟨rfl, rfl, by decide⟩

/-- C10 (amended): a GET `/events` request supplying a non-empty `id`
query parameter is dispatched to the read-one handler whatever `type`
says (a supplied-but-empty `id` is treated as absent); a request
supplying neither a non-empty `id` nor `type=latest` receives the 400
response without any handler running. -/
theorem routeEvents_dispatch_spec :
    (∀ s : String, ∀ t : Option String, s ≠ "" →
      routeEvents (some s) t = Dispatch.readOne) ∧
    (∀ id t : Option String, (id = none ∨ id = some "") → t ≠ some "latest" →
      routeEvents id t = Dispatch.badRequest) := by
  constructor
  · intro s t hs
    simp [routeEvents, jsTruthyOpt, jsTruthy, hs]
  · intro id t hid ht
    rcases hid with h | h <;> subst h <;>
      simp [routeEvents, jsTruthyOpt, jsTruthy, ht]

/-- Witness for the amended C10 theorem: a non-empty `id` next to
`type=latest` reads one; no `id` and no `type=latest` is the immediate
400. -/
theorem routeEvents_dispatch_spec_witness :
    routeEvents (some "abc") (some "latest") = Dispatch.readOne ∧
    routeEvents none none = Dispatch.badRequest :=
  ⟨routeEvents_dispatch_spec.1 "abc" (some "latest") (by decide),
   routeEvents_dispatch_spec.2 none none (Or.inl rfl) (by decide)⟩

/-! ## C7 -/

/-- C7: the identifier codec is a total function returning either an
internal identifier or the invalid outcome (never propagating an
exception), and the read-one handler translates the invalid outcome into
a 400 client error — never a 500. -/
theorem toObjectId_invalid_is_client_error :
    (∀ s : String, toObjectId s = none ∨ ∃ o : ObjId, toObjectId s = some o) ∧
    (∀ s : String, ∀ st : Store, toObjectId s = none →
      errStatus? (getEventById (some s) st) = some 400) := by
  constructor
  · intro s
    cases h : toObjectId s
    · exact Or.inl rfl
    · exact Or.inr ⟨_, rfl⟩
  · intro s st h
    unfold getEventById
    by_cases hs : s = ""
    · simp [hs, errStatus?]
    · simp [hs, h, errStatus?]

/-- Witness for C7 at the identifier `"not-an-id"`: the codec yields the
invalid outcome and read-one answers 400. -/
theorem toObjectId_invalid_is_client_error_witness :
    toObjectId "not-an-id" = none ∧
    errStatus? (getEventById (some "not-an-id") emptyStore) = some 400 :=
  ⟨rfl, toObjectId_invalid_is_client_error.2 "not-an-id" emptyStore rfl⟩

/-! ## C8 -/

/-- Ceiling division on naturals (the embedding of
`Math.ceil(total / limit)` for a positive limit) is the rational ceiling
of the exact quotient. -/
theorem natCeilDiv_cast_ceil (t n : Nat) (hn : 1 ≤ n) :
    (Int.ofNat ((t + (n - 1)) / n)) = ⌈(t : ℚ) / (n : ℚ)⌉ := by
  have hn0 : 0 < n := hn
  have hq : (0 : ℚ) < (n : ℚ) := by exact_mod_cast hn0
  have hdm := Nat.div_add_mod (t + (n - 1)) n
  have hml := Nat.mod_lt (t + (n - 1)) hn0
  set z := (t + (n - 1)) / n with hz
  set m := (t + (n - 1)) % n with hm
  have h1 : t ≤ n * z := by omega
  have h2 : n * z < t + n := by omega
  have hc1 : (t : ℚ) ≤ (n : ℚ) * (z : ℚ) := by exact_mod_cast h1
  have hc2 : (n : ℚ) * (z : ℚ) < (t : ℚ) + (n : ℚ) := by exact_mod_cast h2
  symm
  rw [Int.ceil_eq_iff]
  have hcast : ((Int.ofNat z : ℤ) : ℚ) = (z : ℚ) := by simp
  rw [hcast]
  constructor
  · rw [lt_div_iff₀ hq]
    nlinarith
  · rw [div_le_iff₀ hq]
    nlinarith

/-- C8: every accepted list response satisfies
`totalPages = ceil(totalEvents / eventsPerPage)`,
`hasNextPage = (currentPage < totalPages)` and
`hasPrevPage = (currentPage > 1)`. -/
theorem getLatestEvents_pagination_spec (t lt pt : Option String) (st : Store)
    (r : ListResponse) (h : getLatestEvents t lt pt st = .ok r) :
    r.pagination.totalPages =
      ⌈(r.pagination.totalEvents : ℚ) / (r.pagination.eventsPerPage : ℚ)⌉ ∧
    r.pagination.hasNextPage =
      decide (r.pagination.currentPage < r.pagination.totalPages) ∧
    r.pagination.hasPrevPage = decide (r.pagination.currentPage > 1) := by
  unfold getLatestEvents at h
  split at h
  · exact absurd h (by simp)
  · rename_i ht
    cases hv : validatePagination lt pt with
    | error e =>
      rw [hv] at h
      exact absurd h (by simp)
    | ok pg =>
      rw [hv] at h
      simp only [] at h
      obtain ⟨hb1, _, _⟩ := validatePagination_ok_bounds lt pt pg hv
      cases h
      dsimp only
      refine ⟨?_, rfl, rfl⟩
      have hpos : 0 ≤ pg.limit := by omega
      have hln : ((pg.limit.toNat : ℤ) : ℚ) = ((pg.limit : ℤ) : ℚ) := by
        rw [Int.toNat_of_nonneg hpos]
      have hl1 : 1 ≤ pg.limit.toNat := by omega
      rw [← hln]
      exact natCeilDiv_cast_ceil st.docs.length pg.limit.toNat hl1

/-- Witness for C8: the scenario of 47 records with limit text `"5"` and
page text `"2"` — totalPages 10, hasNextPage and hasPrevPage both true. -/
theorem getLatestEvents_pagination_spec_witness :
    getLatestEvents (some "latest") (some "5") (some "2") store47 = .ok resp47 ∧
    resp47.pagination.totalPages =
      ⌈(resp47.pagination.totalEvents : ℚ) / (resp47.pagination.eventsPerPage : ℚ)⌉ ∧
    resp47.pagination.totalPages = 10 ∧
    resp47.pagination.hasNextPage = true ∧
    resp47.pagination.hasPrevPage = true := by
  have h : getLatestEvents (some "latest") (some "5") (some "2") store47 = .ok resp47 := by
    rfl
  exact ⟨h, (getLatestEvents_pagination_spec (some "latest") (some "5") (some "2")
    store47 resp47 h).1, rfl, rfl, rfl⟩

/-! ## C4 -/

/-- The source's per-field missing test agrees with the amended
criterion. -/
theorem requiredFieldMissing_eq_claim (d : EventInput) (f : String) :
    requiredFieldMissing d f = claimRequiredFlagged d f := by
  unfold requiredFieldMissing claimRequiredFlagged jsTruthyOpt
  cases hg : d.get f with
  | none => rfl
  | some v =>
    cases v with
    | vStr s =>
      by_cases hs : s = ""
      · subst hs
        simp [jsTruthy, jsTrim]
      · simp [jsTruthy, hs]
    | vNum q => cases q <;> simp [jsTruthy]
    | vBool b => cases b <;> simp [jsTruthy]
    | vNull => simp [jsTruthy]
    | vDate t => simp [jsTruthy]
    | vArr xs => simp [jsTruthy]
    | vObj fs => simp [jsTruthy]

/-- A `rigor_rank` shape failure carries exactly the `rigor_rank`
message. -/
theorem checkRigorRank_error_shape (d : EventInput) (e : APIError)
    (h : checkRigorRank d = .error e) :
    e = ⟨"rigor_rank must be a valid integer", 400⟩ := by
  unfold checkRigorRank at h
  split at h
  · split at h
    · cases h; rfl
    · exact absurd h (by simp)
  · exact absurd h (by simp)

/-- A `schedule` shape failure carries exactly the `schedule` message. -/
theorem checkSchedule_error_shape (d : EventInput) (e : APIError)
    (h : checkSchedule d = .error e) :
    e = ⟨"schedule must be a valid date/time", 400⟩ := by
  unfold checkSchedule at h
  split at h
  · split at h
    · split at h
      · cases h; rfl
      · exact absurd h (by simp)
    · exact absurd h (by simp)
  · exact absurd h (by simp)

/-- An `attendees` shape failure carries exactly the `attendees`
message. -/
theorem checkAttendees_error_shape (d : EventInput) (e : APIError)
    (h : checkAttendees d = .error e) :
    e = ⟨"attendees must be an array of user IDs", 400⟩ := by
  unfold checkAttendees at h
  split at h
  · split at h
    · split at h
      · exact absurd h (by simp)
      · cases h; rfl
    · exact absurd h (by simp)
  · exact absurd h (by simp)

/-- The `rigor_rank` message is not a missing-fields message. -/
theorem rigorMsgNeMissing (m : String) :
    ("rigor_rank must be a valid integer" : String) ≠
      "Missing required fields: " ++ m := by
  intro h
  have h2 := congrArg String.data h
  rw [String.data_append] at h2
  simp at h2

/-- The `schedule` message is not a missing-fields message. -/
theorem scheduleMsgNeMissing (m : String) :
    ("schedule must be a valid date/time" : String) ≠
      "Missing required fields: " ++ m := by
  intro h
  have h2 := congrArg String.data h
  rw [String.data_append] at h2
  simp at h2

/-- The `attendees` message is not a missing-fields message. -/
theorem attendeesMsgNeMissing (m : String) :
    ("attendees must be an array of user IDs" : String) ≠
      "Missing required fields: " ++ m := by
  intro h
  have h2 := congrArg String.data h
  rw [String.data_append] at h2
  simp at h2

/-- C4 counterexample: a record with all eight required fields present —
none of them absent, none a blank-after-trim textual value — is still
rejected with a missing-fields message, because the present number 0 in
`rigor_rank` is falsy. -/
theorem validateEventData_rejects_present_zero_rigor :
    validateEventData dZeroRigor false =
      .error ⟨"Missing required fields: rigor_rank", 400⟩ ∧
    (requiredFields.all (fun f => (dZeroRigor.get f).isSome)) = true ∧
    (requiredFields.all (fun f =>
      match dZeroRigor.get f with
      | some (JsValue.vStr s) => !(jsTrim s == "")
      | _ => true)) = true := by
  exact ⟨rfl, rfl, rfl⟩

/-- C4 (amended): in create mode the validator raises the single
missing-fields rejection exactly when at least one of the 8 required
fields is absent, blank after trimming (textual), or otherwise falsy (0,
NaN, false, null); the rejection message lists every such field, not just
the first.  When no field is collected, no missing-fields rejection is
raised. -/
theorem validateEventData_create_missing_spec (d : EventInput) :
    (requiredFields.filter (claimRequiredFlagged d) ≠ [] →
      validateEventData d false =
        .error (mkMissingErr (requiredFields.filter (claimRequiredFlagged d)))) ∧
    (requiredFields.filter (claimRequiredFlagged d) = [] →
      ∀ m : String,
        validateEventData d false ≠ .error ⟨"Missing required fields: " ++ m, 400⟩) := by
  have hfe : requiredFields.filter (requiredFieldMissing d)
      = requiredFields.filter (claimRequiredFlagged d) :=
    List.filter_congr (fun f _ => requiredFieldMissing_eq_claim d f)
  constructor
  · intro hmiss
    have hv : validateRequiredFields d requiredFields =
        .error (mkMissingErr (requiredFields.filter (claimRequiredFlagged d))) := by
      unfold validateRequiredFields
      rw [hfe, if_neg]
      simp only [List.isEmpty_iff]
      exact hmiss
    unfold validateEventData
    rw [if_neg (by simp), hv]
  · intro hmiss m hcontra
    have hv : validateRequiredFields d requiredFields = .ok () := by
      unfold validateRequiredFields
      rw [hfe, if_pos]
      simp only [List.isEmpty_iff]
      exact hmiss
    unfold validateEventData at hcontra
    rw [if_neg (by simp), hv] at hcontra
    simp only [] at hcontra
    cases hr : checkRigorRank d with
    | error e =>
      rw [hr] at hcontra
      simp only [Except.error.injEq] at hcontra
      have hshape := checkRigorRank_error_shape d e hr
      rw [hshape] at hcontra
      exact rigorMsgNeMissing m (congrArg APIError.message hcontra)
    | ok u =>
      rw [hr] at hcontra
      cases hs : checkSchedule d with
      | error e =>
        rw [hs] at hcontra
        simp only [Except.error.injEq] at hcontra
        have hshape := checkSchedule_error_shape d e hs
        rw [hshape] at hcontra
        exact scheduleMsgNeMissing m (congrArg APIError.message hcontra)
      | ok u2 =>
        rw [hs] at hcontra
        cases ha : checkAttendees d with
        | error e =>
          rw [ha] at hcontra
          simp only [Except.error.injEq] at hcontra
          have hshape := checkAttendees_error_shape d e ha
          rw [hshape] at hcontra
          exact attendeesMsgNeMissing m (congrArg APIError.message hcontra)
        | ok u3 =>
          rw [ha] at hcontra
          exact absurd hcontra (by simp)

/-- Witness for the amended C4 theorem on a body missing only its name:
one collected field, named in the message. -/
theorem validateEventData_create_missing_spec_witness :
    requiredFields.filter (claimRequiredFlagged dMissingName) = ["name"] ∧
    validateEventData dMissingName false = .error (mkMissingErr ["name"]) := by
  have h := (validateEventData_create_missing_spec dMissingName).1 (by decide)
  exact ⟨rfl, by rwa [show requiredFields.filter (claimRequiredFlagged dMissingName)
    = ["name"] from rfl] at h⟩

/-! ## C3 -/

/-- C3 counterexample: a create request whose `uid` is the non-numeric
text `"abc"` (with every required field valid and an image uploaded) is
accepted and stored — with the substituted default uid 18 — rather than
rejected by the validator. -/
theorem createEvent_nonnumeric_uid_is_stored :
    exceptOk (createEvent bodyC3 (some "uploads/evt.jpg") 7 emptyStore) = true ∧
    (match createEvent bodyC3 (some "uploads/evt.jpg") 7 emptyStore with
     | .ok (_, _, d) => d.uid
     | _ => none) = some (JsValue.vNum (some 18)) := by
  exact ⟨rfl, rfl⟩

/-- C3 (amended): normalization of a present, non-numeric `uid` text does
produce the not-a-number sentinel, but the validator never examines `uid`
(its verdict is invariant in that field), and the create handler's
defaulting step then replaces the falsy sentinel with 18 — so a
successful create stores the event with uid 18 instead of rejecting. -/
theorem createEvent_nonnumeric_uid_spec :
    (∀ s : String, s ≠ "" → jsParseInt s = none →
      jsConvTruthy (some (JsValue.vStr s))
        (fun v => JsValue.vNum ((jsParseIntValue v).map (fun n => (n : Rat)))) =
        some (JsValue.vNum none)) ∧
    (∀ d : EventInput, ∀ m : Bool, ∀ u : Option JsValue,
      validateEventData { d with uid := u } m = validateEventData d m) ∧
    (∀ body : EventInput, ∀ file : Option String, ∀ now : Int, ∀ st : Store,
     ∀ s : String, body.uid = some (JsValue.vStr s) → s ≠ "" → jsParseInt s = none →
     ∀ st' : Store, ∀ oid : ObjId, ∀ d : EventInput,
       createEvent body file now st = .ok (st', oid, d) →
       d.uid = some (JsValue.vNum (some 18))) := by
  refine ⟨?_, ?_, ?_⟩
  · intro s hs hp
    simp [jsConvTruthy, jsTruthy, hs, jsParseIntValue, hp]
  · intro d m u
    rfl
  · intro body file now st s hbu hs hp st' oid d h
    cases hA : attendeesNormalizeCreate body.attendees with
    | error e =>
      simp only [createEvent, hA] at h
      exact absurd h (by simp)
    | ok a =>
      simp only [createEvent, hA] at h
      cases file with
      | none => simp at h
      | some p =>
        simp only [] at h
        split at h
        · exact absurd h (by simp)
        · simp only [Except.ok.injEq, Prod.mk.injEq] at h
          rw [← h.2.2]
          simp [jsConvTruthy, jsOrDefault, jsTruthy, jsParseIntValue, hbu, hs, hp]

/-- Witness for the amended C3 theorem: the concrete create request with
uid text `"abc"` stores uid 18. -/
theorem createEvent_nonnumeric_uid_spec_witness :
    (match createEvent bodyC3 (some "uploads/evt.jpg") 7 emptyStore with
     | .ok (_, _, d) => d.uid
     | _ => some JsValue.vNull) = some (JsValue.vNum (some 18)) := by
  cases h : createEvent bodyC3 (some "uploads/evt.jpg") 7 emptyStore with
  | ok x =>
    obtain ⟨st', oid, d⟩ := x
    simpa using createEvent_nonnumeric_uid_spec.2.2 bodyC3 (some "uploads/evt.jpg") 7
      emptyStore "abc" rfl (by decide) rfl st' oid d h
  | error e =>
    have hok : exceptOk (createEvent bodyC3 (some "uploads/evt.jpg") 7 emptyStore)
        = true := rfl
    rw [h] at hok
    simp [exceptOk] at hok

/-! ## C6 -/

/-- C6 counterexample: the textual attendees value `"0"` decodes
successfully to a JSON value that is not an array, yet the create request
carrying it is accepted — the decoded 0 is falsy, so the validator's
array check is skipped and the non-array value is stored silently. -/
theorem createEvent_falsy_attendees_not_rejected :
    (jsonParse "0").isSome = true ∧
    (jsonParse "0").map JsValue.isArr = some false ∧
    exceptOk (createEvent bodyC6 (some "uploads/evt.jpg") 7 emptyStore) = true ∧
    (match createEvent bodyC6 (some "uploads/evt.jpg") 7 emptyStore with
     | .ok (_, _, d) => d.attendees.map JsValue.isArr
     | _ => none) = some false := by
  exact ⟨rfl, rfl, rfl, rfl⟩

/-- C6 (amended): on create, a truthy textual attendees value is decoded
as JSON (`"[\"a\",\"b\"]"` yields the sequence `["a","b"]`); a truthy
textual value that fails to decode causes a rejection naming attendees;
a decoded value that is truthy but not an array cannot pass validation;
an entirely absent attendees defaults to the empty sequence; but a falsy
decoded value (such as from text `"0"`) escapes the array check.  On
update, an absent attendees leaves the stored field untouched. -/
theorem attendees_normalization_spec :
    (attendeesNormalizeCreate (some (JsValue.vStr "[\"a\",\"b\"]")) =
      .ok (JsValue.vArr [JsValue.vStr "a", JsValue.vStr "b"])) ∧
    (∀ s : String, s ≠ "" → jsonParse s = none →
      attendeesNormalizeCreate (some (JsValue.vStr s)) =
        .error ⟨"Invalid attendees format. Must be a JSON array", 400⟩) ∧
    (attendeesNormalizeCreate none = .ok (JsValue.vArr [])) ∧
    (∀ d : EventInput, ∀ v : JsValue, d.attendees = some v → jsTruthy v = true →
      v.isArr = false → validateEventData d false ≠ .ok ()) ∧
    (∀ id : String, ∀ body : EventInput, ∀ file : Option String, ∀ now : Int,
     ∀ st st' : Store, ∀ d : EventInput, ∀ oid : ObjId, ∀ old : EventInput,
       body.attendees = none → toObjectId id = some oid →
       st.findDoc? oid = some old → updateEvent id body file now st = .ok (st', d) →
       d.attendees = old.attendees) := by
  refine ⟨by rfl, ?_, by rfl, ?_, ?_⟩
  · intro s hs hp
    simp [attendeesNormalizeCreate, jsTruthy, hs, hp]
  · intro d v hd htr harr hok
    unfold validateEventData at hok
    rw [if_neg (by simp)] at hok
    cases h1 : validateRequiredFields d requiredFields with
    | error e => rw [h1] at hok; exact absurd hok (by simp)
    | ok u =>
      rw [h1] at hok
      simp only [] at hok
      cases h2 : checkRigorRank d with
      | error e => rw [h2] at hok; exact absurd hok (by simp)
      | ok u2 =>
        rw [h2] at hok
        simp only [] at hok
        cases h3 : checkSchedule d with
        | error e => rw [h3] at hok; exact absurd hok (by simp)
        | ok u3 =>
          rw [h3] at hok
          simp only [] at hok
          unfold checkAttendees at hok
          rw [hd] at hok
          simp [htr, harr] at hok
  · intro id body file now st st' d oid old hba hoid hfind h
    simp only [updateEvent, hoid] at h
    split at h
    · exact absurd h (by simp)
    · cases hN : updateNormalize body file now with
      | error e => rw [hN] at h; exact absurd h (by simp)
      | ok nd =>
        rw [hN] at h
        simp only [] at h
        have hnd : nd.attendees = none := by
          cases file with
          | none =>
            simp only [updateNormalize, hba, attendeesNormalizeUpdate] at hN
            simp only [Except.ok.injEq] at hN
            rw [← hN]
          | some p =>
            simp only [updateNormalize, hba, attendeesNormalizeUpdate] at hN
            simp only [Except.ok.injEq] at hN
            rw [← hN]
        cases hF : st.findOneAndUpdate oid nd with
        | none => rw [hF] at h; exact absurd h (by simp)
        | some pr =>
          rw [hF] at h
          obtain ⟨stX, merged⟩ := pr
          simp only [Except.ok.injEq, Prod.mk.injEq] at h
          have hm : merged = setMerge old nd := by
            unfold Store.findOneAndUpdate at hF
            rw [hfind] at hF
            simp only [Option.some.injEq, Prod.mk.injEq] at hF
            exact hF.2.symm
          rw [← h.2, hm]
          simp [setMerge, mergeField, hnd]

/-- Witness for the amended C6 theorem: a non-JSON attendees text is
rejected with the attendees message; a truthy non-array attendees never
validates; a tagline-only update leaves the stored attendees untouched. -/
theorem attendees_normalization_spec_witness :
    attendeesNormalizeCreate (some (JsValue.vStr "not json")) =
      .error ⟨"Invalid attendees format. Must be a JSON array", 400⟩ ∧
    validateEventData bodyBadAtt false ≠ .ok () ∧
    (match updateEvent oidA bodyTagOnly none 99 storeA with
     | .ok (_, d) => d.attendees
     | _ => some JsValue.vNull) = docOld.attendees := by
  refine ⟨attendees_normalization_spec.2.1 "not json" (by decide) rfl,
    attendees_normalization_spec.2.2.2.1 bodyBadAtt (JsValue.vNum (some 5))
      rfl (by rfl) rfl, ?_⟩
  cases h : updateEvent oidA bodyTagOnly none 99 storeA with
  | ok x =>
    obtain ⟨st', d⟩ := x
    simpa using attendees_normalization_spec.2.2.2.2 oidA bodyTagOnly none 99 storeA
      st' d ⟨oidA⟩ docOld rfl rfl rfl h
  | error e =>
    have hok : exceptOk (updateEvent oidA bodyTagOnly none 99 storeA) = true := rfl
    rw [h] at hok
    simp [exceptOk] at hok

/-! ## C5 -/

/-- C5 counterexample: the update handler `$set`s every body field
verbatim, so a body that itself supplies a `created_at` field overwrites
the value assigned at creation. -/
theorem updateEvent_can_overwrite_created_at :
    docOld.created_at = some (JsValue.vDate (some 0)) ∧
    (match updateEvent oidA bodyHack none 99 storeA with
     | .ok (_, d) => d.created_at
     | _ => none) = some (JsValue.vStr "hacked") ∧
    (some (JsValue.vStr "hacked") : Option JsValue) ≠ some (JsValue.vDate (some 0)) := by
  refine ⟨rfl, rfl, ?_⟩
  intro h
  simp at h

/-- C5 (amended): for every successful update of an existing record whose
update body does not itself supply a `created_at` field, the post-update
document keeps the stored `created_at` unchanged, while `updated_at` is
set to the time of the mutation. -/
theorem updateEvent_preserves_created_at :
    ∀ id : String, ∀ body : EventInput, ∀ file : Option String, ∀ now : Int,
    ∀ st st' : Store, ∀ d : EventInput, ∀ oid : ObjId, ∀ old : EventInput,
      body.created_at = none → toObjectId id = some oid →
      st.findDoc? oid = some old → updateEvent id body file now st = .ok (st', d) →
      d.created_at = old.created_at ∧
      d.updated_at = some (JsValue.vDate (some now)) := by
  intro id body file now st st' d oid old hbca hoid hfind h
  simp only [updateEvent, hoid] at h
  split at h
  · exact absurd h (by simp)
  · cases hN : updateNormalize body file now with
    | error e => rw [hN] at h; exact absurd h (by simp)
    | ok nd =>
      rw [hN] at h
      simp only [] at h
      have hnd : nd.created_at = body.created_at ∧
          nd.updated_at = some (JsValue.vDate (some now)) := by
        cases file with
        | none =>
          simp only [updateNormalize] at hN
          cases hA : attendeesNormalizeUpdate body.attendees with
          | error e => rw [hA] at hN; exact absurd hN (by simp)
          | ok a =>
            rw [hA] at hN
            simp only [Except.ok.injEq] at hN
            rw [← hN]
            exact ⟨rfl, rfl⟩
        | some p =>
          simp only [updateNormalize] at hN
          cases hA : attendeesNormalizeUpdate body.attendees with
          | error e => rw [hA] at hN; exact absurd hN (by simp)
          | ok a =>
            rw [hA] at hN
            simp only [Except.ok.injEq] at hN
            rw [← hN]
            exact ⟨rfl, rfl⟩
      cases hF : st.findOneAndUpdate oid nd with
      | none => rw [hF] at h; exact absurd h (by simp)
      | some pr =>
        rw [hF] at h
        obtain ⟨stX, merged⟩ := pr
        simp only [Except.ok.injEq, Prod.mk.injEq] at h
        have hm : merged = setMerge old nd := by
          unfold Store.findOneAndUpdate at hF
          rw [hfind] at hF
          simp only [Option.some.injEq, Prod.mk.injEq] at hF
          exact hF.2.symm
        rw [← h.2, hm]
        constructor
        · show mergeField nd.created_at old.created_at = old.created_at
          rw [hnd.1, hbca]
          rfl
        · show mergeField nd.updated_at old.updated_at =
            some (JsValue.vDate (some now))
          rw [hnd.2]
          rfl

/-- Witness for the amended C5 theorem: the tagline-only update of the
stored record keeps `created_at` and stamps `updated_at` with the
mutation moment 99. -/
theorem updateEvent_preserves_created_at_witness :
    (match updateEvent oidA bodyTagOnly none 99 storeA with
     | .ok (_, d) => (d.created_at, d.updated_at)
     | _ => (none, none)) =
      (docOld.created_at, some (JsValue.vDate (some 99))) := by
  cases h : updateEvent oidA bodyTagOnly none 99 storeA with
  | ok x =>
    obtain ⟨st', d⟩ := x
    have hc := updateEvent_preserves_created_at oidA bodyTagOnly none 99 storeA
      st' d ⟨oidA⟩ docOld rfl rfl rfl h
    simp [hc.1, hc.2]
  | error e =>
    have hok : exceptOk (updateEvent oidA bodyTagOnly none 99 storeA) = true := rfl
    rw [h] at hok
    simp [exceptOk] at hok

/-! ## C1 -/

/-- C1 (code-bug evidence): the update handler never calls the validator —
no update-mode validation runs before the store write.  The update with
rigor_rank text `"abc"` (a valid identifier, a non-empty body) succeeds
and writes the not-a-number sentinel into the stored document, while
update-mode validation of that normalized record would have rejected it
with the 400 client error the claim describes. -/
theorem updateEvent_writes_nan_rigor_without_validation :
    bodyNanRigor.keyCount ≠ 0 ∧
    exceptOk (updateEvent oidA bodyNanRigor none 99 storeA) = true ∧
    (match updateEvent oidA bodyNanRigor none 99 storeA with
     | .ok (_, d) => d.rigor_rank
     | _ => none) = some (JsValue.vNum none) ∧
    validateEventData
        { EventInput.empty with rigor_rank := some (JsValue.vNum none) } true =
      .error ⟨"rigor_rank must be a valid integer", 400⟩ := by
  exact ⟨by decide, rfl, rfl, rfl⟩
